import Mathlib

/-!
Verification of the cardiomyocyte development animation engine
(`complete-cardiomyocyte-app.py`).

The Python program is shallowly embedded over exact rational arithmetic:
every Python float is modelled as a `ℚ`, Python `int(x)` (truncation
toward zero) as `pyTrunc`, `x % 1.0` as `pyMod1`, and a dictionary lookup
that can raise `KeyError` as an `Option`-valued function.  The
transcendental functions `np.sin`, `np.cos` and the constant `np.pi`,
which no verified property depends on, are supplied by an abstract
`MathOracle`.  The global `np.random` stream is modelled by an explicit
pair of streams (`Rng`): `q i` is the value of the `i`-th
`np.random.random()` call and `n i` feeds the `i`-th `np.random.randint`
call; an index into the streams is threaded through the code in program
order.  `ImageDraw` mutation is modelled as an accumulated list of
drawing commands.
-/

namespace Cardio

/-- Python `int(x)` for a float `x`: truncation toward zero. -/
def pyTrunc (q : ℚ) : ℤ := if q < 0 then ⌈q⌉ else ⌊q⌋

/-- Python `x % 1.0` for a float `x`: `x - floor x` (the modulus is positive). -/
def pyMod1 (q : ℚ) : ℚ := q - ⌊q⌋

/-- An RGB colour triple, one integer per channel (source: 3-tuples like
`(255, 214, 204)`). -/
structure RGB where
  r : ℤ
  g : ℤ
  b : ℤ
  deriving DecidableEq, Repr

/-- An RGBA colour as used by the drawing calls. -/
abbrev RGBA := ℤ × ℤ × ℤ × ℤ

/-- One record of the `cell_characteristics` table (source lines 18-139);
the same shape of record is also what `interpolate_characteristics`
returns.  `cell_count` is stored as a rational because interpolation
blends it like every other numeric field. -/
structure Characteristics where
  title : String
  shape : String
  elongation : ℚ
  alignment : ℚ
  connection : ℚ
  sarcomere_organization : ℚ
  beating_strength : ℚ
  beating_sync : ℚ
  color_base : RGB
  nucleus_size : ℚ
  debris_level : ℚ
  cell_count : ℚ
  cell_clustering : ℚ
  deriving DecidableEq, Repr

/-- Day-1 anchor record, "Immature Stage". -/
def day1 : Characteristics :=
  { title := "Immature Stage", shape := "round", elongation := 1.0, alignment := 0.1,
    connection := 0.1, sarcomere_organization := 0.1, beating_strength := 0.1,
    beating_sync := 0.1, color_base := ⟨255, 214, 204⟩, nucleus_size := 0.7,
    debris_level := 0.1, cell_count := 8, cell_clustering := 0.1 }

/-- Day-2 anchor record, "Initial Beating". -/
def day2 : Characteristics :=
  { title := "Initial Beating", shape := "slightly_elongated", elongation := 1.2,
    alignment := 0.2, connection := 0.2, sarcomere_organization := 0.2,
    beating_strength := 0.3, beating_sync := 0.2, color_base := ⟨255, 204, 204⟩,
    nucleus_size := 0.65, debris_level := 0.1, cell_count := 12, cell_clustering := 0.3 }

/-- Day-3 anchor record, "Mean Beating Begins". -/
def day3 : Characteristics :=
  { title := "Mean Beating Begins", shape := "elongated", elongation := 1.5,
    alignment := 0.4, connection := 0.3, sarcomere_organization := 0.4,
    beating_strength := 0.5, beating_sync := 0.4, color_base := ⟨255, 194, 194⟩,
    nucleus_size := 0.5, debris_level := 0.2, cell_count := 16, cell_clustering := 0.5 }

/-- Day-4 anchor record, "Stronger Contractions". -/
def day4 : Characteristics :=
  { title := "Stronger Contractions", shape := "well_elongated", elongation := 1.8,
    alignment := 0.6, connection := 0.5, sarcomere_organization := 0.6,
    beating_strength := 0.7, beating_sync := 0.6, color_base := ⟨255, 153, 153⟩,
    nucleus_size := 0.45, debris_level := 0.2, cell_count := 20, cell_clustering := 0.7 }

/-- Day-5 anchor record, "Moderate Synchronization". -/
def day5 : Characteristics :=
  { title := "Moderate Synchronization", shape := "fully_elongated", elongation := 2.0,
    alignment := 0.8, connection := 0.7, sarcomere_organization := 0.8,
    beating_strength := 0.85, beating_sync := 0.8, color_base := ⟨255, 102, 102⟩,
    nucleus_size := 0.4, debris_level := 0.3, cell_count := 24, cell_clustering := 0.8 }

/-- Day-6 anchor record, "Peak Contraction Activity". -/
def day6 : Characteristics :=
  { title := "Peak Contraction Activity", shape := "fully_elongated", elongation := 2.2,
    alignment := 0.9, connection := 0.9, sarcomere_organization := 0.9,
    beating_strength := 1.0, beating_sync := 0.9, color_base := ⟨255, 51, 51⟩,
    nucleus_size := 0.4, debris_level := 0.4, cell_count := 28, cell_clustering := 0.9 }

/-- Day-7 anchor record, "Damage & Fragmentation Begins". -/
def day7 : Characteristics :=
  { title := "Damage & Fragmentation Begins", shape := "fragmenting", elongation := 1.6,
    alignment := 0.5, connection := 0.6, sarcomere_organization := 0.5,
    beating_strength := 0.6, beating_sync := 0.5, color_base := ⟨204, 51, 51⟩,
    nucleus_size := 0.3, debris_level := 0.7, cell_count := 20, cell_clustering := 0.6 }

/-- Day-8 anchor record, "Significant Cell Damage". -/
def day8 : Characteristics :=
  { title := "Significant Cell Damage", shape := "fragmented", elongation := 1.2,
    alignment := 0.2, connection := 0.2, sarcomere_organization := 0.1,
    beating_strength := 0.2, beating_sync := 0.1, color_base := ⟨153, 51, 51⟩,
    nucleus_size := 0.25, debris_level := 0.9, cell_count := 12, cell_clustering := 0.2 }

/-- The `cell_characteristics` dictionary: keys 1..8; any other key raises
`KeyError` in Python, modelled as `none`. -/
def cell_characteristics (day : ℤ) : Option Characteristics :=
  if day = 1 then some day1
  else if day = 2 then some day2
  else if day = 3 then some day3
  else if day = 4 then some day4
  else if day = 5 then some day5
  else if day = 6 then some day6
  else if day = 7 then some day7
  else if day = 8 then some day8
  else none

/-- `val1 + (val2 - val1) * fraction`: the numeric branch of the
interpolation loop (source line 167). -/
def lerp (val1 val2 fraction : ℚ) : ℚ := val1 + (val2 - val1) * fraction

/-- One colour channel of the `color_base` branch (source lines 160-162):
interpolate, then truncate with `int(...)`. -/
def lerpChannel (c1 c2 : ℤ) (fraction : ℚ) : ℤ :=
  pyTrunc ((c1 : ℚ) + ((c2 : ℚ) - (c1 : ℚ)) * fraction)

/-- The body of the interpolation loop over the record's keys (source
lines 153-167): `title` and `shape` copied from the lower day, colour
channels interpolated then truncated, every other field interpolated. -/
def blend (lo hi : Characteristics) (fraction : ℚ) : Characteristics :=
  { title := lo.title
    shape := lo.shape
    elongation := lerp lo.elongation hi.elongation fraction
    alignment := lerp lo.alignment hi.alignment fraction
    connection := lerp lo.connection hi.connection fraction
    sarcomere_organization := lerp lo.sarcomere_organization hi.sarcomere_organization fraction
    beating_strength := lerp lo.beating_strength hi.beating_strength fraction
    beating_sync := lerp lo.beating_sync hi.beating_sync fraction
    color_base := ⟨lerpChannel lo.color_base.r hi.color_base.r fraction,
                   lerpChannel lo.color_base.g hi.color_base.g fraction,
                   lerpChannel lo.color_base.b hi.color_base.b fraction⟩
    nucleus_size := lerp lo.nucleus_size hi.nucleus_size fraction
    debris_level := lerp lo.debris_level hi.debris_level fraction
    cell_count := lerp lo.cell_count hi.cell_count fraction
    cell_clustering := lerp lo.cell_clustering hi.cell_clustering fraction }

/-- `interpolate_characteristics` (source lines 143-169).  `day_lower =
int(day_float)`, `day_upper = min(8, day_lower + 1)`; if `day_lower == 8`
the day-8 anchor is returned verbatim, otherwise the two bracketing
anchors are blended.  A missing dictionary key (Python `KeyError`, which
happens for `day_lower` outside 1..8) is modelled as `none`. -/
def interpolate_characteristics (day_float : ℚ) : Option Characteristics :=
  let day_lower := pyTrunc day_float
  let day_upper := min 8 (day_lower + 1)
  let fraction := day_float - (day_lower : ℚ)
  if day_lower = 8 then cell_characteristics 8
  else
    (cell_characteristics day_lower).bind fun lo =>
      (cell_characteristics day_upper).map fun hi => blend lo hi fraction

/-- `v` lies between `a` and `b` inclusive (rational values). -/
def betweenQ (a b v : ℚ) : Prop := min a b ≤ v ∧ v ≤ max a b

/-- `v` lies between `a` and `b` inclusive (integer colour channels). -/
def betweenZ (a b v : ℤ) : Prop := min a b ≤ v ∧ v ≤ max a b

/-- Every non-categorical numeric field and every colour channel of `r`
lies between the corresponding values of `lo` and `hi`, inclusive. -/
def BetweenRec (lo hi r : Characteristics) : Prop :=
  betweenQ lo.elongation hi.elongation r.elongation ∧
  betweenQ lo.alignment hi.alignment r.alignment ∧
  betweenQ lo.connection hi.connection r.connection ∧
  betweenQ lo.sarcomere_organization hi.sarcomere_organization r.sarcomere_organization ∧
  betweenQ lo.beating_strength hi.beating_strength r.beating_strength ∧
  betweenQ lo.beating_sync hi.beating_sync r.beating_sync ∧
  betweenQ lo.nucleus_size hi.nucleus_size r.nucleus_size ∧
  betweenQ lo.debris_level hi.debris_level r.debris_level ∧
  betweenQ lo.cell_count hi.cell_count r.cell_count ∧
  betweenQ lo.cell_clustering hi.cell_clustering r.cell_clustering ∧
  betweenZ lo.color_base.r hi.color_base.r r.color_base.r ∧
  betweenZ lo.color_base.g hi.color_base.g r.color_base.g ∧
  betweenZ lo.color_base.b hi.color_base.b r.color_base.b

theorem lerp_between (a b t : ℚ) (h0 : 0 ≤ t) (h1 : t ≤ 1) : betweenQ a b (lerp a b t) := by
  unfold betweenQ lerp
  rcases le_total a b with hab | hab
  · rw [min_eq_left hab, max_eq_right hab]
    constructor <;> nlinarith
  · rw [min_eq_right hab, max_eq_left hab]
    constructor <;> nlinarith

theorem pyTrunc_between (a b : ℤ) (v : ℚ) (ha : (a : ℚ) ≤ v) (hb : v ≤ (b : ℚ)) :
    a ≤ pyTrunc v ∧ pyTrunc v ≤ b := by
  unfold pyTrunc
  split
  · exact ⟨by exact_mod_cast ha.trans (Int.le_ceil v), Int.ceil_le.mpr hb⟩
  · exact ⟨Int.le_floor.mpr ha, by exact_mod_cast (Int.floor_le v).trans hb⟩

theorem lerpChannel_between (a b : ℤ) (t : ℚ) (h0 : 0 ≤ t) (h1 : t ≤ 1) :
    betweenZ a b (lerpChannel a b t) := by
  have h := lerp_between (a : ℚ) (b : ℚ) t h0 h1
  unfold betweenQ at h
  have hcast := pyTrunc_between (min a b) (max a b) (lerp (a : ℚ) (b : ℚ) t)
    (by push_cast; exact h.1) (by push_cast; exact h.2)
  exact hcast

theorem betweenRec_blend (lo hi : Characteristics) (t : ℚ) (h0 : 0 ≤ t) (h1 : t ≤ 1) :
    BetweenRec lo hi (blend lo hi t) := by
  refine ⟨?_, ?_, ?_, ?_, ?_, ?_, ?_, ?_, ?_, ?_, ?_, ?_, ?_⟩ <;>
    first
      | exact lerp_between _ _ _ h0 h1
      | exact lerpChannel_between _ _ _ h0 h1

theorem betweenRec_refl (r : Characteristics) : BetweenRec r r r := by
  simp [BetweenRec, betweenQ, betweenZ]

theorem anchors_exist (n : ℤ) (h1 : 1 ≤ n) (h8 : n ≤ 8) :
    ∃ r, cell_characteristics n = some r := by
  interval_cases n <;> exact ⟨_, rfl⟩

theorem cell_characteristics_none (n : ℤ) (h : 8 < n) : cell_characteristics n = none := by
  unfold cell_characteristics
  repeat rw [if_neg (by omega)]

theorem pyTrunc_eq_floor (q : ℚ) (h : 0 ≤ q) : pyTrunc q = ⌊q⌋ := by
  unfold pyTrunc
  rw [if_neg (by linarith)]

theorem interp_eq_blend (day : ℚ) (lo hi : Characteristics)
    (h1 : 1 ≤ pyTrunc day) (h7 : pyTrunc day ≤ 7)
    (hlo : cell_characteristics (pyTrunc day) = some lo)
    (hhi : cell_characteristics (pyTrunc day + 1) = some hi) :
    interpolate_characteristics day = some (blend lo hi (day - (pyTrunc day : ℚ))) := by
  unfold interpolate_characteristics
  have h8 : ¬ pyTrunc day = 8 := by omega
  have hmin : min 8 (pyTrunc day + 1) = pyTrunc day + 1 := by omega
  simp only [hmin, if_neg h8, hlo, hhi]
  rfl

/-- C1: for every day in [1,8], every non-categorical numeric field and
every colour channel of `interpolate_characteristics day` lies between
the corresponding values of the floor-day anchor and the ceiling-day
anchor, inclusive (linear interpolation with truncated colour channels
never overshoots the bracketing anchors). -/
theorem interpolation_stays_between_anchors (day : ℚ) (hd1 : 1 ≤ day) (hd8 : day ≤ 8) :
    ∃ lo hi r, cell_characteristics (pyTrunc day) = some lo ∧
      cell_characteristics (min 8 (pyTrunc day + 1)) = some hi ∧
      interpolate_characteristics day = some r ∧ BetweenRec lo hi r := by
  have hfl : pyTrunc day = ⌊day⌋ := pyTrunc_eq_floor day (by linarith)
  have hl : 1 ≤ ⌊day⌋ := Int.le_floor.mpr (by exact_mod_cast hd1)
  have hu : ⌊day⌋ ≤ 8 := by
    have h := Int.floor_le_floor hd8
    simpa using h
  by_cases h88 : ⌊day⌋ = 8
  · have hday : day = 8 := by
      have h8d : (8 : ℚ) ≤ day := by
        have := Int.floor_le day
        rw [h88] at this
        exact_mod_cast this
      linarith
    subst hday
    refine ⟨day8, day8, day8, ?_, ?_, ?_, betweenRec_refl day8⟩
    · rw [hfl, h88]; rfl
    · rw [hfl, h88]; rfl
    · norm_num [interpolate_characteristics, cell_characteristics, pyTrunc]
  · have h7 : ⌊day⌋ ≤ 7 := by omega
    obtain ⟨lo, hlo⟩ := anchors_exist ⌊day⌋ hl (by omega)
    obtain ⟨hi, hhi⟩ := anchors_exist (⌊day⌋ + 1) (by omega) (by omega)
    have hf0 : 0 ≤ day - (⌊day⌋ : ℚ) := by
      have := Int.floor_le day
      linarith
    have hf1 : day - (⌊day⌋ : ℚ) ≤ 1 := by
      have := Int.lt_floor_add_one day
      push_cast at this
      linarith
    refine ⟨lo, hi, blend lo hi (day - (⌊day⌋ : ℚ)), ?_, ?_, ?_, betweenRec_blend lo hi _ hf0 hf1⟩
    · rw [hfl]; exact hlo
    · rw [hfl, min_eq_right (by omega)]; exact hhi
    · rw [← hfl] at hlo hhi ⊢
      exact interp_eq_blend day lo hi (by omega) (by omega) hlo hhi

/-- C1 witness: the bound instantiated at day 3/2. -/
theorem interpolation_stays_between_anchors_witness :
    ∃ lo hi r, cell_characteristics (pyTrunc (3 / 2)) = some lo ∧
      cell_characteristics (min 8 (pyTrunc (3 / 2) + 1)) = some hi ∧
      interpolate_characteristics (3 / 2) = some r ∧ BetweenRec lo hi r :=
  interpolation_stays_between_anchors (3 / 2) (by norm_num) (by norm_num)

/-- C2: for every day in [1,8), `interpolate_characteristics` copies
`title` and `shape` unchanged from the floor-day anchor, so its `shape`
agrees with the record interpolated at the (truncated) floor day. -/
theorem interpolation_keeps_categorical (d : ℚ) (hd1 : 1 ≤ d) (hd8 : d < 8) :
    ∃ lo r rf, cell_characteristics (pyTrunc d) = some lo ∧
      interpolate_characteristics d = some r ∧
      interpolate_characteristics ((pyTrunc d : ℤ) : ℚ) = some rf ∧
      r.title = lo.title ∧ r.shape = lo.shape ∧ r.shape = rf.shape := by
  have hfl : pyTrunc d = ⌊d⌋ := pyTrunc_eq_floor d (by linarith)
  have hl : 1 ≤ pyTrunc d := by
    rw [hfl]; exact Int.le_floor.mpr (by exact_mod_cast hd1)
  have h7 : pyTrunc d ≤ 7 := by
    rw [hfl]
    have h8 : ⌊d⌋ < 8 := Int.floor_lt.mpr (by exact_mod_cast hd8)
    omega
  obtain ⟨lo, hlo⟩ := anchors_exist (pyTrunc d) hl (by omega)
  obtain ⟨hi, hhi⟩ := anchors_exist (pyTrunc d + 1) (by omega) (by omega)
  have htr : pyTrunc ((pyTrunc d : ℤ) : ℚ) = pyTrunc d := by
    rw [pyTrunc_eq_floor _ (by exact_mod_cast (show (0 : ℤ) ≤ pyTrunc d by omega))]
    exact Int.floor_intCast _
  refine ⟨lo, blend lo hi (d - (pyTrunc d : ℚ)),
    blend lo hi (((pyTrunc d : ℤ) : ℚ) - (pyTrunc d : ℚ)), hlo,
    interp_eq_blend d lo hi hl h7 hlo hhi, ?_, rfl, rfl, rfl⟩
  have h1' : 1 ≤ pyTrunc ((pyTrunc d : ℤ) : ℚ) := by rw [htr]; exact hl
  have h7' : pyTrunc ((pyTrunc d : ℤ) : ℚ) ≤ 7 := by rw [htr]; exact h7
  have hlo' : cell_characteristics (pyTrunc ((pyTrunc d : ℤ) : ℚ)) = some lo := by
    rw [htr]; exact hlo
  have hhi' : cell_characteristics (pyTrunc ((pyTrunc d : ℤ) : ℚ) + 1) = some hi := by
    rw [htr]; exact hhi
  have h := interp_eq_blend ((pyTrunc d : ℤ) : ℚ) lo hi h1' h7' hlo' hhi'
  rw [htr] at h
  exact h

/-- C2 witness: instantiated at day 3/2 (floor day 1). -/
theorem interpolation_keeps_categorical_witness :
    ∃ lo r rf, cell_characteristics (pyTrunc (3 / 2)) = some lo ∧
      interpolate_characteristics (3 / 2) = some r ∧
      interpolate_characteristics ((pyTrunc (3 / 2) : ℤ) : ℚ) = some rf ∧
      r.title = lo.title ∧ r.shape = lo.shape ∧ r.shape = rf.shape :=
  interpolation_keeps_categorical (3 / 2) (by norm_num) (by norm_num)

/-- C3: `interpolate_characteristics 1` is the day-1 anchor record
field-for-field, and `interpolate_characteristics 8` is the day-8 anchor
record verbatim. -/
theorem interpolation_endpoints_exact :
    interpolate_characteristics 1 = some day1 ∧ interpolate_characteristics 8 = some day8 := by
  constructor
  · norm_num [interpolate_characteristics, cell_characteristics, pyTrunc, blend, lerp,
      lerpChannel, day1, day2]
  · norm_num [interpolate_characteristics, cell_characteristics, pyTrunc]

/-- C4 counterexample: day 9 is strictly greater than 8, but the code
does not clamp it to the day-8 anchor; `int(9.0) = 9` misses the
`day_lower == 8` guard and the anchor-table lookup of key 9 fails
(Python `KeyError`, modelled as `none`). -/
theorem day_nine_is_not_clamped :
    (8 : ℚ) < 9 ∧ interpolate_characteristics 9 = none ∧
      interpolate_characteristics 9 ≠ some day8 := by
  have hnone : interpolate_characteristics 9 = none := by
    norm_num [interpolate_characteristics, cell_characteristics, pyTrunc]
  exact ⟨by norm_num, hnone, by simp [hnone]⟩

/-- C4 (amended): values of `day` with 8 < day < 9 are clamped to the
day-8 anchor record verbatim, but for day ≥ 9 the anchor lookup fails
(Python `KeyError`, modelled as `none`) instead of clamping. -/
theorem clamp_above_eight (day : ℚ) :
    (8 < day → day < 9 → interpolate_characteristics day = some day8) ∧
    (9 ≤ day → interpolate_characteristics day = none) := by
  constructor
  · intro h8 h9
    have hfl : pyTrunc day = ⌊day⌋ := pyTrunc_eq_floor day (by linarith)
    have h88 : ⌊day⌋ = 8 := by
      have hl : 8 ≤ ⌊day⌋ := Int.le_floor.mpr (by exact_mod_cast h8.le)
      have hu : ⌊day⌋ < 9 := Int.floor_lt.mpr (by exact_mod_cast h9)
      omega
    unfold interpolate_characteristics
    rw [hfl, h88]
    rfl
  · intro h9
    have hfl : pyTrunc day = ⌊day⌋ := pyTrunc_eq_floor day (by linarith)
    have hl : 9 ≤ ⌊day⌋ := Int.le_floor.mpr (by exact_mod_cast h9)
    unfold interpolate_characteristics
    rw [hfl, if_neg (by omega), cell_characteristics_none ⌊day⌋ (by omega)]
    rfl

/-- C4 witness: clamping at day 17/2 and lookup failure at day 9. -/
theorem clamp_above_eight_witness :
    interpolate_characteristics (17 / 2) = some day8 ∧
      interpolate_characteristics 9 = none :=
  ⟨(clamp_above_eight (17 / 2)).1 (by norm_num) (by norm_num),
   (clamp_above_eight 9).2 (by norm_num)⟩

/-- Abstract model of the transcendental library functions `np.sin`,
`np.cos` and the constant `np.pi` used by the renderer; no verified
property depends on their values. -/
structure MathOracle where
  sin : ℚ → ℚ
  cos : ℚ → ℚ
  pi : ℚ

/-- The `np.random` source: `q i` is the result of the `i`-th
`np.random.random()` call (in [0,1)), and `n i` feeds the `i`-th
`np.random.randint` call (reduced modulo the requested bound). -/
structure Rng where
  q : ℕ → ℚ
  n : ℕ → ℕ

/-- One `ImageDraw` mutation of the canvas. -/
inductive DrawCmd where
  | ellipse (x0 y0 x1 y1 : ℚ) (color : RGBA)
  | line (x0 y0 x1 y1 : ℚ) (color : RGBA) (width : ℕ)
  | rect (x0 y0 x1 y1 : ℚ) (color : RGBA)
  deriving DecidableEq, Repr

/-- `reduced_cell_count` (source line 185):
`min(int(characteristics["cell_count"] * 0.8), 15)`. -/
def reduced_cell_count (characteristics : Characteristics) : ℤ :=
  min (pyTrunc (characteristics.cell_count * 0.8)) 15

/-- `num_clusters` (source line 188):
`min(3, max(2, int(characteristics["cell_clustering"] * 3)))`. -/
def num_clusters (characteristics : Characteristics) : ℤ :=
  min 3 (max 2 (pyTrunc (characteristics.cell_clustering * 3)))

/-- The `cluster_centers` list (source lines 189-194): `num_clusters`
points, each drawn with two `np.random.random()` calls, inset 100 from
the canvas edge. -/
def cluster_centers (characteristics : Characteristics) (rng : Rng)
    (frame_width frame_height : ℚ) : List (ℚ × ℚ) :=
  (List.range (num_clusters characteristics).toNat).map fun i =>
    (100 + rng.q (2 * i) * (frame_width - 200), 100 + rng.q (2 * i + 1) * (frame_height - 200))

/-- The ordered `(i, j)` pairs visited by the nested loops
`for i in range(n): for j in range(i+1, n)` (source lines 198-199). -/
def clusterPairs (n : ℕ) : List (ℕ × ℕ) :=
  (List.range n).flatMap fun i => (List.range (n - (i + 1))).map fun t => (i, i + 1 + t)

/-- The inter-cluster connection step (source lines 197-204): attempted
only when `connection > 0.4`; each cluster pair independently draws one
random and produces a line when it is below `connection`.  Returns the
chosen endpoint pairs, the emitted line commands, and the next random
index. -/
def connectionStage (characteristics : Characteristics) (centers : List (ℚ × ℚ)) (rng : Rng)
    (k0 : ℕ) : List ((ℚ × ℚ) × (ℚ × ℚ)) × List DrawCmd × ℕ :=
  if characteristics.connection > 0.4 then
    let pairs := clusterPairs centers.length
    let edges := pairs.enum.filterMap fun pr =>
      if rng.q (k0 + pr.1) < characteristics.connection then
        some (centers.getD pr.2.1 (0, 0), centers.getD pr.2.2 (0, 0))
      else none
    let conn_color : RGBA := (characteristics.color_base.r, characteristics.color_base.g,
      characteristics.color_base.b, 120)
    (edges, edges.map fun e => DrawCmd.line e.1.1 e.1.2 e.2.1 e.2.2 conn_color 2, k0 + pairs.length)
  else ([], [], k0)

/-- State threaded through the cell-distribution `while` loop (source
lines 207-311): the random index, `cells_drawn`, `clusters_used`, and
the drawing commands issued so far. -/
structure CellState where
  k : ℕ
  cellsDrawn : ℤ
  clustersUsed : ℕ
  cmds : List DrawCmd
  deriving Repr

/-- One fragment of the fragment branch (source lines 253-257): three
randoms for offset-x, offset-y and size, then one ellipse. -/
def drawFragment (rng : Rng) (characteristics : Characteristics) (x y : ℚ) (k : ℕ) :
    DrawCmd × ℕ :=
  let frag_x := x + rng.q k * 15 - 7
  let frag_y := y + rng.q (k + 1) * 15 - 7
  let frag_size := 4 + rng.q (k + 2) * 4
  (DrawCmd.ellipse frag_x frag_y (frag_x + frag_size) (frag_y + frag_size)
    (characteristics.color_base.r, characteristics.color_base.g,
     characteristics.color_base.b, 150), k + 3)

/-- The `num_fragments = 3` loop of the fragment branch (source lines
251-257). -/
def drawFragments (rng : Rng) (characteristics : Characteristics) (x y : ℚ) (k : ℕ) :
    List DrawCmd × ℕ :=
  let f0 := drawFragment rng characteristics x y k
  let f1 := drawFragment rng characteristics x y f0.2
  let f2 := drawFragment rng characteristics x y f1.2
  ([f0.1, f1.1, f2.1], f2.2)

/-- One of the two segments of a broken sarcomere line (source lines
288-293): drawn with probability 0.7, one random consumed either way. -/
def sarcomereSegment (rng : Rng) (line_start line_length line_position : ℚ) (line_color : RGBA)
    (sIdx : ℕ) (st : List DrawCmd × ℕ) : List DrawCmd × ℕ :=
  if rng.q st.2 < 0.7 then
    let seg_start := line_start + line_length * sIdx / 2
    let seg_end := line_start + line_length * (sIdx + 1) / 2
    (st.1 ++ [DrawCmd.line seg_start line_position seg_end line_position line_color 1], st.2 + 1)
  else (st.1, st.2 + 1)

/-- One sarcomere line (source lines 275-296).  When
`sarcomere_organization < 0.5` a random decides (Python short-circuit:
the random is only drawn in that case) whether the line renders as two
broken segments; otherwise one continuous line is drawn. -/
def sarcomereLine (rng : Rng) (characteristics : Characteristics)
    (x y cell_width cell_height : ℚ) (i : ℕ) (st : List DrawCmd × ℕ) : List DrawCmd × ℕ :=
  let num_lines : ℚ := 3
  let line_position := y + cell_height * (i + 1) / (num_lines + 1)
  let line_length := cell_width * 0.8
  let line_start := x + (cell_width - line_length) / 2
  let line_end := line_start + line_length
  let line_color : RGBA := (max (characteristics.color_base.r - 50) 0,
    max (characteristics.color_base.g - 50) 0,
    max (characteristics.color_base.b - 50) 0, 150)
  if characteristics.sarcomere_organization < 0.5 then
    if rng.q st.2 > 0.5 then
      sarcomereSegment rng line_start line_length line_position line_color 1
        (sarcomereSegment rng line_start line_length line_position line_color 0
          (st.1, st.2 + 1))
    else
      (st.1 ++ [DrawCmd.line line_start line_position line_end line_position line_color 1],
       st.2 + 1)
  else
    (st.1 ++ [DrawCmd.line line_start line_position line_end line_position line_color 1], st.2)

/-- Tail of one cell draw once position and size are fixed (source lines
266-311): cell body ellipse, optional sarcomere structure (three lines
when `sarcomere_organization > 0.3`), nucleus with probability 0.8, and
`cells_drawn += 1`. -/
def finishCell (rng : Rng) (characteristics : Characteristics)
    (x y cell_width cell_height : ℚ) (k : ℕ) (s : CellState) : CellState :=
  let cell_color : RGBA := (characteristics.color_base.r, characteristics.color_base.g,
    characteristics.color_base.b, 180)
  let body := DrawCmd.ellipse x y (x + cell_width) (y + cell_height) cell_color
  let sarc :=
    if characteristics.sarcomere_organization > 0.3 then
      sarcomereLine rng characteristics x y cell_width cell_height 2
        (sarcomereLine rng characteristics x y cell_width cell_height 1
          (sarcomereLine rng characteristics x y cell_width cell_height 0 ([], k)))
    else ([], k)
  let nuc :=
    if rng.q sarc.2 < 0.8 then
      let nucleus_size := characteristics.nucleus_size
      let nucleus_width := cell_width * nucleus_size
      let nucleus_height := cell_height * nucleus_size
      let nucleus_x := x + (cell_width - nucleus_width) / 2
      let nucleus_y := y + (cell_height - nucleus_height) / 2
      ([DrawCmd.ellipse nucleus_x nucleus_y (nucleus_x + nucleus_width)
        (nucleus_y + nucleus_height) (102, 102, 204, 180)], sarc.2 + 1)
    else ([], sarc.2 + 1)
  { k := nuc.2, cellsDrawn := s.cellsDrawn + 1, clustersUsed := s.clustersUsed,
    cmds := s.cmds ++ [body] ++ sarc.1 ++ nuc.1 }

/-- One iteration of the inner `for _ in range(cells_in_cluster)` loop
(source lines 223-311): pick a random position around the cluster
centre, pick the shape-dependent geometry, and either draw three
fragments (fragment branch, which also increments `cells_drawn` before
`continue`) or finish the cell body. -/
def drawOneCell (O : MathOracle) (rng : Rng) (characteristics : Characteristics)
    (beat_pulse cluster_x cluster_y : ℚ) (s : CellState) : CellState :=
  let cluster_radius := 20 + 15 * characteristics.cell_clustering
  let angle := rng.q s.k * 2 * O.pi
  let distance := rng.q (s.k + 1) * cluster_radius
  let x := cluster_x + O.cos angle * distance
  let y := cluster_y + O.sin angle * distance
  let k := s.k + 2
  let base_width : ℚ := 15
  let beat_effect := 1 + beat_pulse * characteristics.beating_strength * 0.3
  if characteristics.shape = "round" then
    let cell_width := base_width * beat_effect
    finishCell rng characteristics x y cell_width cell_width k s
  else if characteristics.shape = "slightly_elongated" ∨ characteristics.shape = "elongated" ∨
      characteristics.shape = "well_elongated" ∨ characteristics.shape = "fully_elongated" then
    let cell_width := base_width * beat_effect
    let cell_height := base_width * characteristics.elongation * beat_effect
    if rng.q k < characteristics.alignment then
      finishCell rng characteristics x y cell_height cell_width (k + 1) s
    else
      finishCell rng characteristics x y cell_width cell_height (k + 1) s
  else
    if rng.q k < 0.6 ∧ characteristics.debris_level > 0.5 then
      let frags := drawFragments rng characteristics x y (k + 1)
      { k := frags.2, cellsDrawn := s.cellsDrawn + 1, clustersUsed := s.clustersUsed,
        cmds := s.cmds ++ frags.1 }
    else
      let cell_width := base_width * beat_effect * 0.8
      let cell_height := base_width * characteristics.elongation * beat_effect * 0.8
      finishCell rng characteristics x y cell_width cell_height (k + 1) s

/-- The inner loop run `n` times. -/
def innerLoop (O : MathOracle) (rng : Rng) (characteristics : Characteristics)
    (beat_pulse cluster_x cluster_y : ℚ) : ℕ → CellState → CellState
  | 0, s => s
  | n + 1, s =>
    innerLoop O rng characteristics beat_pulse cluster_x cluster_y n
      (drawOneCell O rng characteristics beat_pulse cluster_x cluster_y s)

/-- Cluster selection at the top of each `while` iteration (source
lines 213-218): the first `len(cluster_centers)` iterations take the
clusters in order, later iterations pick one with `np.random.randint`. -/
def pickCenter (rng : Rng) (centers : List (ℚ × ℚ)) (s : CellState) : (ℚ × ℚ) × CellState :=
  if s.clustersUsed < centers.length then
    (centers.getD s.clustersUsed (0, 0), { s with clustersUsed := s.clustersUsed + 1 })
  else
    let cluster_index := rng.n s.k % centers.length
    (centers.getD cluster_index (0, 0), { s with k := s.k + 1 })

/-- The `while cells_drawn < reduced_cell_count` loop (source lines
211-311), modelled with explicit fuel: each iteration picks a cluster
centre and draws a batch of `min(5, reduced_cell_count - cells_drawn)`
cells.  `outerLoop_reaches` below proves that `reduced.toNat` fuel makes
the guard fail, i.e. the source loop terminates. -/
def outerLoop (O : MathOracle) (rng : Rng) (characteristics : Characteristics)
    (beat_pulse : ℚ) (reduced : ℤ) (centers : List (ℚ × ℚ)) : ℕ → CellState → CellState
  | 0, s => s
  | fuel + 1, s =>
    if s.cellsDrawn < reduced then
      let pick := pickCenter rng centers s
      let cells_in_cluster := (min 5 (reduced - s.cellsDrawn)).toNat
      outerLoop O rng characteristics beat_pulse reduced centers fuel
        (innerLoop O rng characteristics beat_pulse pick.1.1 pick.1.2 cells_in_cluster pick.2)
    else s

/-- The debris pass (source lines 313-327): `int(debris_level * 80)`
particles, three randoms each, colour switched at `debris_level < 0.5`. -/
def debrisStage (characteristics : Characteristics) (rng : Rng) (k0 : ℕ)
    (frame_width frame_height : ℚ) : List DrawCmd × ℕ :=
  let debris_count := (pyTrunc (characteristics.debris_level * 80)).toNat
  ((List.range debris_count).map fun i =>
    let k := k0 + 3 * i
    let debris_x := rng.q k * frame_width
    let debris_y := rng.q (k + 1) * frame_height
    let debris_size := 1 + rng.q (k + 2) * 3
    let debris_color : RGBA :=
      if characteristics.debris_level < 0.5 then (180, 180, 180, 80) else (160, 100, 100, 100)
    DrawCmd.ellipse debris_x debris_y (debris_x + debris_size) (debris_y + debris_size)
      debris_color,
   k0 + 3 * debris_count)

/-- The finished frame: the ordered drawing commands plus the structural
data the properties talk about. -/
structure Frame where
  cluster_centers : List (ℚ × ℚ)
  edges : List ((ℚ × ℚ) × (ℚ × ℚ))
  cellsDrawn : ℤ
  cellCmds : List DrawCmd
  debrisCmds : List DrawCmd
  dayLabel : ℤ
  cmds : List DrawCmd
  deriving Repr

/-- `generate_frame` (source lines 173-338): beat-phase computation,
cluster layout, inter-cluster connections, the cell-distribution loop,
the debris pass, and the day-indicator overlay, in program order on one
shared random stream. -/
def generate_frame (O : MathOracle) (rng : Rng) (characteristics : Characteristics)
    (time_point frame_width frame_height : ℚ) : Frame :=
  let beat_frequency := 1 + characteristics.beating_strength
  let beat_phase := pyMod1 (time_point * beat_frequency)
  let beat_pulse := O.sin (beat_phase * O.pi)
  let reduced := reduced_cell_count characteristics
  let centers := cluster_centers characteristics rng frame_width frame_height
  let conn := connectionStage characteristics centers rng
    (2 * (num_clusters characteristics).toNat)
  let s0 : CellState := ⟨conn.2.2, 0, 0, []⟩
  let sF := outerLoop O rng characteristics beat_pulse reduced centers reduced.toNat s0
  let deb := debrisStage characteristics rng sF.k frame_width frame_height
  let day_decimal := 1 + time_point / 60 * 7
  let text_bg : RGBA := (240, 240, 240, 180)
  { cluster_centers := centers, edges := conn.1, cellsDrawn := sF.cellsDrawn,
    cellCmds := sF.cmds, debrisCmds := deb.1, dayLabel := pyTrunc day_decimal,
    cmds := conn.2.1 ++ sF.cmds ++ deb.1 ++ [DrawCmd.rect 10 10 160 30 text_bg] }

/-- `total_keyframes` (source lines 431-434): 12 keyframes for ranges of
at most 2 days, otherwise `int(16 * (max_day - min_day) / 7)`. -/
def total_keyframes (min_day max_day : ℚ) : ℤ :=
  if max_day - min_day ≤ 2 then 12 else pyTrunc (16 * (max_day - min_day) / 7)

/-- `np.linspace(min_day, max_day, n)` (source line 439): `n` evenly
spaced samples including both endpoints (for `n ≥ 2`). -/
def linspace (min_day max_day : ℚ) (n : ℕ) : List ℚ :=
  (List.range n).map fun (i : ℕ) => min_day + (max_day - min_day) * (i : ℚ) / ((n : ℚ) - 1)

/-- `day_positions` (source line 439). -/
def day_positions (min_day max_day : ℚ) : List ℚ :=
  linspace min_day max_day (total_keyframes min_day max_day).toNat

/-- The keyframe-generation loop of the assembler (source lines 442-447):
one frame per entry of `day_positions`, each day mapped to
`time_point = (day - 1) * (60 / 7)`; frame `i` consumes its own slice of
the random source. -/
def sample_frames (O : MathOracle) (rngs : ℕ → Rng) (min_day max_day : ℚ) :
    List (Option Frame) :=
  (day_positions min_day max_day).enum.map fun pr =>
    (interpolate_characteristics pr.2).map fun characteristics =>
      generate_frame O (rngs pr.1) characteristics ((pr.2 - 1) * (60 / 7)) 400 300

/-- The reduced-count formula as the spec's words state it, with
`round` in place of the code's `int` truncation, for comparison. -/
def reduced_cell_count_spec (characteristics : Characteristics) : ℤ :=
  min (round (characteristics.cell_count * 0.8)) 15

/-- The keyframe-count formula as the spec's words state it, with
`round` in place of the code's `int` truncation, for comparison. -/
def total_keyframes_spec (min_day max_day : ℚ) : ℤ :=
  if max_day - min_day ≤ 2 then 12 else round (16 * (max_day - min_day) / 7)

/-- Constant-zero oracle used for witness instantiations. -/
def zeroOracle : MathOracle := ⟨fun _ => 0, fun _ => 0, 0⟩

/-- Constant-zero random streams used for witness instantiations. -/
def zeroRng : Rng := ⟨fun _ => 0, fun _ => 0⟩

/-- A degenerate record: the day-1 anchor with `cell_count` zeroed. -/
def degenerateRecord : Characteristics := { day1 with cell_count := 0 }

theorem finishCell_cellsDrawn (rng : Rng) (characteristics : Characteristics)
    (x y cell_width cell_height : ℚ) (k : ℕ) (s : CellState) :
    (finishCell rng characteristics x y cell_width cell_height k s).cellsDrawn =
      s.cellsDrawn + 1 := rfl

theorem drawOneCell_cellsDrawn (O : MathOracle) (rng : Rng)
    (characteristics : Characteristics) (beat_pulse cluster_x cluster_y : ℚ) (s : CellState) :
    (drawOneCell O rng characteristics beat_pulse cluster_x cluster_y s).cellsDrawn =
      s.cellsDrawn + 1 := by
  simp only [drawOneCell]
  split_ifs <;> rfl

theorem innerLoop_cellsDrawn (O : MathOracle) (rng : Rng)
    (characteristics : Characteristics) (beat_pulse cluster_x cluster_y : ℚ) (n : ℕ)
    (s : CellState) :
    (innerLoop O rng characteristics beat_pulse cluster_x cluster_y n s).cellsDrawn =
      s.cellsDrawn + n := by
  induction n generalizing s with
  | zero => simp [innerLoop]
  | succ n ih =>
    rw [innerLoop, ih, drawOneCell_cellsDrawn]
    push_cast
    ring

theorem pickCenter_cellsDrawn (rng : Rng) (centers : List (ℚ × ℚ)) (s : CellState) :
    ((pickCenter rng centers s).2).cellsDrawn = s.cellsDrawn := by
  unfold pickCenter
  split <;> rfl

theorem outerLoop_exit (O : MathOracle) (rng : Rng) (characteristics : Characteristics)
    (beat_pulse : ℚ) (reduced : ℤ) (centers : List (ℚ × ℚ)) (fuel : ℕ) (s : CellState)
    (h : reduced ≤ s.cellsDrawn) :
    outerLoop O rng characteristics beat_pulse reduced centers fuel s = s := by
  cases fuel with
  | zero => rfl
  | succ fuel => rw [outerLoop, if_neg (not_lt.mpr h)]

theorem outerLoop_reaches (O : MathOracle) (rng : Rng) (characteristics : Characteristics)
    (beat_pulse : ℚ) (reduced : ℤ) (centers : List (ℚ × ℚ)) (fuel : ℕ) (s : CellState)
    (hle : s.cellsDrawn ≤ reduced) (hfuel : reduced - s.cellsDrawn ≤ fuel) :
    (outerLoop O rng characteristics beat_pulse reduced centers fuel s).cellsDrawn = reduced := by
  induction fuel generalizing s with
  | zero =>
    have : s.cellsDrawn = reduced := by
      simp only [Nat.cast_zero] at hfuel
      omega
    simpa [outerLoop] using this
  | succ fuel ih =>
    rw [outerLoop]
    by_cases h : s.cellsDrawn < reduced
    · rw [if_pos h]
      have hmin1 : 1 ≤ min 5 (reduced - s.cellsDrawn) := le_min (by omega) (by omega)
      have hmin2 : min 5 (reduced - s.cellsDrawn) ≤ reduced - s.cellsDrawn :=
        min_le_right _ _
      have hcast : (((min 5 (reduced - s.cellsDrawn)).toNat : ℤ)) =
          min 5 (reduced - s.cellsDrawn) := Int.toNat_of_nonneg (by omega)
      have hdrawn : (innerLoop O rng characteristics beat_pulse
          (pickCenter rng centers s).1.1 (pickCenter rng centers s).1.2
          (min 5 (reduced - s.cellsDrawn)).toNat (pickCenter rng centers s).2).cellsDrawn =
          s.cellsDrawn + min 5 (reduced - s.cellsDrawn) := by
        rw [innerLoop_cellsDrawn, pickCenter_cellsDrawn, hcast]
      apply ih
      · rw [hdrawn]; omega
      · rw [hdrawn]
        push_cast at hfuel ⊢
        omega
    · rw [if_neg h]
      omega

theorem outerLoop_add (O : MathOracle) (rng : Rng) (characteristics : Characteristics)
    (beat_pulse : ℚ) (reduced : ℤ) (centers : List (ℚ × ℚ)) (a b : ℕ) (s : CellState) :
    outerLoop O rng characteristics beat_pulse reduced centers (a + b) s =
      outerLoop O rng characteristics beat_pulse reduced centers b
        (outerLoop O rng characteristics beat_pulse reduced centers a s) := by
  induction a generalizing s with
  | zero => rw [Nat.zero_add]; rfl
  | succ a ih =>
    have hn : a + 1 + b = (a + b) + 1 := by omega
    rw [hn, outerLoop]
    by_cases h : s.cellsDrawn < reduced
    · rw [if_pos h, ih]
      congr 1
      rw [outerLoop, if_pos h]
    · rw [if_neg h]
      rw [show outerLoop O rng characteristics beat_pulse reduced centers (a + 1) s = s from
        outerLoop_exit _ _ _ _ _ _ _ _ (not_lt.mp h)]
      exact (outerLoop_exit _ _ _ _ _ _ _ _ (not_lt.mp h)).symm

theorem reduced_cell_count_nonneg (characteristics : Characteristics)
    (h : 0 ≤ characteristics.cell_count) : 0 ≤ reduced_cell_count characteristics := by
  unfold reduced_cell_count
  have h8 : (0 : ℚ) ≤ characteristics.cell_count * 0.8 := mul_nonneg h (by norm_num)
  rw [pyTrunc_eq_floor _ h8]
  exact le_min (Int.floor_nonneg.mpr h8) (by norm_num)

theorem generate_frame_cellsDrawn_eq (O : MathOracle) (rng : Rng)
    (characteristics : Characteristics) (time_point frame_width frame_height : ℚ) :
    (generate_frame O rng characteristics time_point frame_width frame_height).cellsDrawn =
      (outerLoop O rng characteristics
        (O.sin (pyMod1 (time_point * (1 + characteristics.beating_strength)) * O.pi))
        (reduced_cell_count characteristics)
        (cluster_centers characteristics rng frame_width frame_height)
        (reduced_cell_count characteristics).toNat
        ⟨(connectionStage characteristics
            (cluster_centers characteristics rng frame_width frame_height) rng
            (2 * (num_clusters characteristics).toNat)).2.2, 0, 0, []⟩).cellsDrawn := rfl

/-- C5 counterexample: at the day-2 anchor record (`cell_count = 12`) the
code computes `min(int(12 * 0.8), 15) = int(9.6) = 9`, while the claimed
formula `min(round(12 * 0.8), 15)` gives 10. -/
theorem reduced_count_truncates_not_rounds :
    reduced_cell_count day2 = 9 ∧ reduced_cell_count_spec day2 = 10 ∧
      reduced_cell_count day2 ≠ reduced_cell_count_spec day2 := by
  refine ⟨?_, ?_, ?_⟩ <;>
    norm_num [reduced_cell_count, reduced_cell_count_spec, pyTrunc, day2, round_eq]

/-- C5 (amended): the reduced per-frame cell count truncates rather than
rounds: for every record with nonnegative `cell_count`, the number of
cells drawn by `generate_frame` equals `min(int(cell_count * 0.8), 15)`. -/
theorem cells_drawn_eq_reduced_count (O : MathOracle) (rng : Rng)
    (characteristics : Characteristics) (time_point frame_width frame_height : ℚ)
    (h : 0 ≤ characteristics.cell_count) :
    (generate_frame O rng characteristics time_point frame_width frame_height).cellsDrawn =
      min (pyTrunc (characteristics.cell_count * 0.8)) 15 := by
  rw [generate_frame_cellsDrawn_eq]
  have h0 : 0 ≤ reduced_cell_count characteristics := reduced_cell_count_nonneg _ h
  have hr := outerLoop_reaches O rng characteristics
    (O.sin (pyMod1 (time_point * (1 + characteristics.beating_strength)) * O.pi))
    (reduced_cell_count characteristics)
    (cluster_centers characteristics rng frame_width frame_height)
    (reduced_cell_count characteristics).toNat
    ⟨(connectionStage characteristics
        (cluster_centers characteristics rng frame_width frame_height) rng
        (2 * (num_clusters characteristics).toNat)).2.2, 0, 0, []⟩
    (by simpa using h0) (by simp)
  rw [hr]
  rfl

/-- C5 witness: the amended count at the day-1 anchor with zero streams. -/
theorem cells_drawn_eq_reduced_count_witness :
    (0 : ℚ) ≤ day1.cell_count ∧
      (generate_frame zeroOracle zeroRng day1 0 400 300).cellsDrawn =
        min (pyTrunc (day1.cell_count * 0.8)) 15 :=
  ⟨by norm_num [day1],
   cells_drawn_eq_reduced_count zeroOracle zeroRng day1 0 400 300 (by norm_num [day1])⟩

theorem linspace_length (min_day max_day : ℚ) (n : ℕ) : (linspace min_day max_day n).length = n := by
  simp [linspace]

theorem sample_frames_length (O : MathOracle) (rngs : ℕ → Rng) (min_day max_day : ℚ) :
    (sample_frames O rngs min_day max_day).length = (total_keyframes min_day max_day).toNat := by
  rw [sample_frames, List.length_map, List.enum_length, day_positions, linspace_length]

/-- C6 counterexample: for the selectable "Middle (3-6)" day range the
code computes `int(16 * 3 / 7) = int(48/7) = 6` keyframes, while the
claimed formula `round(16 * 3 / 7)` gives 7. -/
theorem middle_range_keyframes_differ :
    total_keyframes 3 6 = 6 ∧ total_keyframes_spec 3 6 = 7 ∧
      total_keyframes 3 6 ≠ total_keyframes_spec 3 6 ∧
      (sample_frames zeroOracle (fun _ => zeroRng) 3 6).length = 6 := by
  refine ⟨?_, ?_, ?_, ?_⟩
  · norm_num [total_keyframes, pyTrunc]
  · norm_num [total_keyframes_spec, round_eq]
  · norm_num [total_keyframes, total_keyframes_spec, pyTrunc, round_eq]
  · rw [sample_frames_length]
    have h6 : total_keyframes 3 6 = 6 := by norm_num [total_keyframes, pyTrunc]
    rw [h6]
    rfl

/-- C6 (amended): the assembler produces exactly `total_keyframes` frames,
where the proportional branch truncates: 12 keyframes when
`max - min ≤ 2`, otherwise `int(16 * (max - min) / 7)`; the range (1,8)
yields 16 and (1,3) yields 12 as claimed, but (3,6) yields 6 (not
`round(48/7) = 7`). -/
theorem assembler_keyframe_count (O : MathOracle) (rngs : ℕ → Rng) (min_day max_day : ℚ) :
    (sample_frames O rngs min_day max_day).length = (total_keyframes min_day max_day).toNat ∧
      total_keyframes 1 8 = 16 ∧ total_keyframes 1 3 = 12 ∧ total_keyframes 3 6 = 6 := by
  refine ⟨?_, ?_, ?_, ?_⟩
  · exact sample_frames_length O rngs min_day max_day
  · norm_num [total_keyframes, pyTrunc]
  · norm_num [total_keyframes]
  · norm_num [total_keyframes, pyTrunc]

/-- C7: for every record (including `cell_clustering` 0.0 and 1.0) and
every random stream, the frame's cluster layout has either 2 or 3
centres. -/
theorem cluster_count_two_or_three (O : MathOracle) (rng : Rng)
    (characteristics : Characteristics) (time_point frame_width frame_height : ℚ) :
    (generate_frame O rng characteristics
        time_point frame_width frame_height).cluster_centers.length = 2 ∨
      (generate_frame O rng characteristics
        time_point frame_width frame_height).cluster_centers.length = 3 := by
  have hproj : (generate_frame O rng characteristics
      time_point frame_width frame_height).cluster_centers =
      cluster_centers characteristics rng frame_width frame_height := rfl
  have hlen : (cluster_centers characteristics rng frame_width frame_height).length =
      (num_clusters characteristics).toNat := by
    simp [cluster_centers]
  have h2 : 2 ≤ num_clusters characteristics :=
    le_min (by norm_num) (le_max_left _ _)
  have h3 : num_clusters characteristics ≤ 3 := min_le_left _ _
  rw [hproj, hlen]
  omega

/-- C8: for every record with `connection ≤ 0.4` and every random stream,
the frame has zero inter-cluster connection edges; the edge-drawing step
is attempted only when `connection > 0.4`. -/
theorem no_edges_at_low_connection (O : MathOracle) (rng : Rng)
    (characteristics : Characteristics) (time_point frame_width frame_height : ℚ)
    (h : characteristics.connection ≤ 0.4) :
    (generate_frame O rng characteristics time_point frame_width frame_height).edges = [] := by
  have hproj : (generate_frame O rng characteristics
      time_point frame_width frame_height).edges =
      (connectionStage characteristics
        (cluster_centers characteristics rng frame_width frame_height) rng
        (2 * (num_clusters characteristics).toNat)).1 := rfl
  rw [hproj]
  unfold connectionStage
  rw [if_neg (not_lt.mpr h)]

/-- C8 witness: no edges at the day-1 anchor (`connection = 0.1`). -/
theorem no_edges_at_low_connection_witness :
    day1.connection ≤ 0.4 ∧
      (generate_frame zeroOracle zeroRng day1 0 400 300).edges = [] :=
  ⟨by norm_num [day1],
   no_edges_at_low_connection zeroOracle zeroRng day1 0 400 300 (by norm_num [day1])⟩

/-- C9: a record with `cell_count = 0` gives `reduced_cell_count = 0`, so
the cell-distribution loop exits at once from its initial state (for any
amount of fuel) and `generate_frame` still produces a frame containing
no cells. -/
theorem degenerate_record_empty_frame (O : MathOracle) (rng : Rng)
    (characteristics : Characteristics) (time_point frame_width frame_height : ℚ)
    (h : characteristics.cell_count = 0) :
    reduced_cell_count characteristics = 0 ∧
      (∀ beat_pulse centers fuel k,
        outerLoop O rng characteristics beat_pulse (reduced_cell_count characteristics)
          centers fuel ⟨k, 0, 0, []⟩ = ⟨k, 0, 0, []⟩) ∧
      (generate_frame O rng characteristics time_point frame_width frame_height).cellsDrawn = 0 ∧
      (generate_frame O rng characteristics time_point frame_width frame_height).cellCmds = [] := by
  have h0 : reduced_cell_count characteristics = 0 := by
    norm_num [reduced_cell_count, pyTrunc, h]
  have hstable : ∀ beat_pulse centers fuel k,
      outerLoop O rng characteristics beat_pulse (reduced_cell_count characteristics)
        centers fuel ⟨k, 0, 0, []⟩ = ⟨k, 0, 0, []⟩ := by
    intro beat_pulse centers fuel k
    exact outerLoop_exit _ _ _ _ _ _ _ _ (by rw [h0])
  refine ⟨h0, hstable, ?_, ?_⟩
  · rw [generate_frame_cellsDrawn_eq, hstable]
  · have hproj : (generate_frame O rng characteristics
        time_point frame_width frame_height).cellCmds =
        (outerLoop O rng characteristics
          (O.sin (pyMod1 (time_point * (1 + characteristics.beating_strength)) * O.pi))
          (reduced_cell_count characteristics)
          (cluster_centers characteristics rng frame_width frame_height)
          (reduced_cell_count characteristics).toNat
          ⟨(connectionStage characteristics
              (cluster_centers characteristics rng frame_width frame_height) rng
              (2 * (num_clusters characteristics).toNat)).2.2, 0, 0, []⟩).cmds := rfl
    rw [hproj, hstable]

/-- C9 witness: the degenerate day-1 record with zero streams. -/
theorem degenerate_record_empty_frame_witness :
    degenerateRecord.cell_count = 0 ∧
      (generate_frame zeroOracle zeroRng degenerateRecord 0 400 300).cellsDrawn = 0 ∧
      (generate_frame zeroOracle zeroRng degenerateRecord 0 400 300).cellCmds = [] := by
  have h := degenerate_record_empty_frame zeroOracle zeroRng degenerateRecord 0 400 300 rfl
  exact ⟨rfl, h.2.2.1, h.2.2.2⟩

/-- C10: the cell-distribution while-loop terminates for every record
with nonnegative `cell_count` and every random stream: each iteration
draws a batch of `min(5, remaining) ≥ 1` cells and increments
`cells_drawn` on every path (fragment branch included), so with
`reduced.toNat` iterations the counter reaches `reduced_cell_count` (the
guard fails), and any additional fuel leaves the state unchanged. -/
theorem cell_loop_terminates (O : MathOracle) (rng : Rng)
    (characteristics : Characteristics) (beat_pulse : ℚ) (centers : List (ℚ × ℚ)) (k : ℕ)
    (h : 0 ≤ characteristics.cell_count) :
    ∃ N, (outerLoop O rng characteristics beat_pulse (reduced_cell_count characteristics)
        centers N ⟨k, 0, 0, []⟩).cellsDrawn = reduced_cell_count characteristics ∧
      ∀ fuel, N ≤ fuel →
        outerLoop O rng characteristics beat_pulse (reduced_cell_count characteristics)
            centers fuel ⟨k, 0, 0, []⟩ =
          outerLoop O rng characteristics beat_pulse (reduced_cell_count characteristics)
            centers N ⟨k, 0, 0, []⟩ := by
  have h0 : 0 ≤ reduced_cell_count characteristics := reduced_cell_count_nonneg _ h
  refine ⟨(reduced_cell_count characteristics).toNat, ?_, ?_⟩
  · exact outerLoop_reaches _ _ _ _ _ _ _ _ (by simpa using h0) (by simp)
  · intro fuel hfuel
    obtain ⟨d, rfl⟩ := Nat.exists_eq_add_of_le hfuel
    rw [outerLoop_add]
    exact outerLoop_exit _ _ _ _ _ _ _ _
      (le_of_eq (outerLoop_reaches _ _ _ _ _ _ _ _ (by simpa using h0) (by simp)).symm)

/-- C10 witness: termination at the day-1 anchor with zero streams. -/
theorem cell_loop_terminates_witness :
    ∃ N, (outerLoop zeroOracle zeroRng day1 0 (reduced_cell_count day1)
        [] N ⟨0, 0, 0, []⟩).cellsDrawn = reduced_cell_count day1 ∧
      ∀ fuel, N ≤ fuel →
        outerLoop zeroOracle zeroRng day1 0 (reduced_cell_count day1) [] fuel ⟨0, 0, 0, []⟩ =
          outerLoop zeroOracle zeroRng day1 0 (reduced_cell_count day1) [] N ⟨0, 0, 0, []⟩ :=
  cell_loop_terminates zeroOracle zeroRng day1 0 [] 0 (by norm_num [day1])

end Cardio
